import Mathlib

/-!
Verification of the extraction/rotation logic of `scraper_logic.py`
(taleofthetape). Python string and dict operations are modelled
structurally on `List Char` / association lists so that every definition
is executable and kernel-reducible.
-/

set_option maxRecDepth 10000

namespace Scraper

/-! ## Python string primitives -/

/-- Python `str.split(sep)` for a one-character separator: splits at every
occurrence, keeping empty segments (`"a::b".split(":") == ["a","","b"]`). -/
def splitBy (p : Char → Bool) : List Char → List (List Char)
  | [] => [[]]
  | c :: t =>
    match splitBy p t with
    | [] => [[c]]
    | h :: r => if p c then [] :: h :: r else (c :: h) :: r

/-- Python `str.strip()`: drop leading and trailing whitespace. -/
def pyStrip (l : List Char) : List Char :=
  ((l.dropWhile Char.isWhitespace).reverse.dropWhile Char.isWhitespace).reverse

/-- Python `str.split()` (no argument): split on whitespace runs, dropping
empty tokens. -/
def pyWsSplit (l : List Char) : List (List Char) :=
  (splitBy Char.isWhitespace l).filter (fun s => s ≠ [])

/-- Whitespace-delimited tokens of a name, as in `fighter_name.split()`. -/
def pyTokens (s : String) : List (List Char) :=
  pyWsSplit s.data

/-- Python `int(s)` on a string: optional surrounding whitespace, optional
single sign, then at least one ASCII digit; `none` models `ValueError`. -/
def digitsToNat (l : List Char) : Option Nat :=
  if l ≠ [] ∧ l.all Char.isDigit then
    some (l.foldl (fun a c => a * 10 + (c.toNat - 48)) 0)
  else none

/-- Python `int(s)` (sign handling). -/
def pyInt (s : List Char) : Option Int :=
  match pyStrip s with
  | '-' :: r => (digitsToNat r).map (fun n => -(n : Int))
  | '+' :: r => (digitsToNat r).map (fun n => (n : Int))
  | t => (digitsToNat t).map (fun n => (n : Int))

/-- Contiguous-substring test: Python `p in fname` on strings. -/
def segOccurs (p : List Char) : List Char → Bool
  | [] => p.isEmpty
  | c :: t => p.isPrefixOf (c :: t) || segOccurs p t

/-! ## `time_to_seconds` (scraper_logic.py lines 56-68) -/

/-- Model of `time_to_seconds`: convert `"MM:SS"` to total seconds, `0` on the
sentinel/malformed cases handled by the code. -/
def time_to_seconds (time_str : String) : Int :=
  if time_str = "" then 0
  else
    let t := pyStrip time_str.data
    if t = "N/A".data ∨ t = "-".data ∨ t = [] then 0
    else
      match splitBy (fun c => c = ':') t with
      | [m, s] =>
        match pyInt m, pyInt s with
        | some minutes, some seconds => minutes * 60 + seconds
        | _, _ => 0
      | _ => 0

/-! ## `normalize` and `filename_matches_fighter` (lines 71-88) -/

/-- Model of `normalize`: lowercase, then remove every character outside `a`-`z`. -/
def normalize (text : String) : List Char :=
  (text.data.map Char.toLower).filter (fun c => 'a' ≤ c && c ≤ 'z')

/-- List-level normalize, for name tokens. -/
def normalizeL (l : List Char) : List Char :=
  (l.map Char.toLower).filter (fun c => 'a' ≤ c && c ≤ 'z')

/-- Python `url.split("/")[-1]`: last path segment of a URL. -/
def lastSegment (url : String) : List Char :=
  (splitBy (fun c => c = '/') url.data).getLastD []

/-- Model of `filename_matches_fighter`: every normalized whitespace token of the
fighter's name must occur in the normalized last path segment of the URL;
a falsy (empty) URL never matches. -/
def filename_matches_fighter (url : String) (fighter_name : String) : Bool :=
  if url = "" then false
  else
    let fname := normalizeL (lastSegment url)
    (pyTokens fighter_name).all (fun p => segOccurs (normalizeL p) fname)

/-! ## Data model

An `AthleteRecord` models the per-fighter dicts stored in
`game_data["fighter_data"]` (and produced by `scrape_fighter_stats`).
A field is `none` when the corresponding dict key is absent; a key stored
with Python `None` is also modelled as `none` (no claim distinguishes the
two). `Fight_Time_Seconds` is the only integer-valued key. -/
structure AthleteRecord where
  Name : Option String := none
  Profile_URL : Option String := none
  Picture_URL : Option String := none
  Record : Option String := none
  SLpM : Option String := none
  SApM : Option String := none
  TD_Avg : Option String := none
  Sub_Avg : Option String := none
  Fight_Time : Option String := none
  Fight_Time_Seconds : Option Int := none
  Division : Option String := none
  Rank : Option String := none
  Selected_Date : Option String := none
  deriving DecidableEq, Inhabited

/-- Python truthiness of an optional string value: `None` and `""` are
falsy, everything else truthy. -/
def truthyO (o : Option String) : Bool :=
  o.getD "" ≠ ""

/-- One entry of the list returned by `scrape_rankings`. -/
structure RankingEntry where
  Name : String
  Division : String
  Rank : String
  Profile_URL : Option String
  deriving DecidableEq, Inhabited

/-- The persisted `game_data` dict.  `fighter_data` is an association
list in dict insertion order (Python dict keys are unique). -/
structure GameState where
  daily_fighter : Option AthleteRecord
  past_fighters : List String
  fighter_data : List (String × AthleteRecord)
  deriving DecidableEq, Inhabited

/-! ## `scrape_rankings` row acceptance (lines 192-213) -/

def BASE_URL : String := "https://www.ufc.com"

/-- Python `BASE_URL + href if href.startswith("/") else href or None`. -/
def resolveHref (href : String) : Option String :=
  if ['/'].isPrefixOf href.data then some (BASE_URL ++ href)
  else if href ≠ "" then some href
  else none

/-- A `tbody tr` row of a division table, as seen by the parser: the text
of its first `td` (if present) and the text/href of the anchor in its
second `td` (if present). -/
structure RankRow where
  rankCell : Option String
  nameCell : Option (String × String)
  deriving DecidableEq, Inhabited

/-- Python `str.upper()` (ASCII model). -/
def pyUpper (s : String) : String :=
  String.mk (s.data.map Char.toUpper)

/-- Python `rank_text[0].isdigit()` guarded by non-emptiness. -/
def firstIsDigit (s : String) : Bool :=
  match s.data with
  | c :: _ => c.isDigit
  | [] => false

/-- Per-row logic of the ranked-fighter loop in `scrape_rankings`:
skip the row if a cell is missing, or if the rank text is falsy, or if
its first character is not a digit and its upper-case is neither `"P4P"`
nor `"C"`. -/
def processRow (division : String) (row : RankRow) : Option RankingEntry :=
  match row.rankCell, row.nameCell with
  | some rank_text, some (name_text, href) =>
    if rank_text = "" then none
    else if ¬ firstIsDigit rank_text ∧ pyUpper rank_text ≠ "P4P" ∧ pyUpper rank_text ≠ "C" then
      none
    else some ⟨name_text, division, rank_text, resolveHref href⟩
  | _, _ => none

/-! ## `scrape_fighter_image` (lines 226-251) -/

/-- Slot-based image resolution: slot A if its filename matches, else
slot B if it matches, else slot A verbatim when truthy, else `"N/A"`.
An absent slot is `none`; a falsy (empty) slot value behaves like an
absent one, exactly as in the Python truthiness checks. -/
def scrape_fighter_image (slot_a slot_b : Option String) (fighter_name : String) : String :=
  if filename_matches_fighter (slot_a.getD "") fighter_name then slot_a.getD ""
  else if filename_matches_fighter (slot_b.getD "") fighter_name then slot_b.getD ""
  else if truthyO slot_a then slot_a.getD ""
  else "N/A"

/-! ## `scrape_fighter_stats` (lines 254-327) -/

/-- A fetched, parsed profile page, reduced to what the XPath helper
`xp_text` returns for each stat (always a string; `"N/A"` when the XPath
finds nothing) plus the two raw image slots. -/
structure ProfileDoc where
  recordTxt : String := "N/A"
  slpmTxt : String := "N/A"
  sapmTxt : String := "N/A"
  tdTxt : String := "N/A"
  subTxt : String := "N/A"
  ftimeTxt : String := "N/A"
  slotA : Option String := none
  slotB : Option String := none
  deriving DecidableEq, Inhabited

/-- The dict-comprehension filter `v not in [None, "", "N/A", "-"]`. -/
def keepVal (v : String) : Option String :=
  if v = "" ∨ v = "N/A" ∨ v = "-" then none else some v

/-- The `final_stats` dict after filtering, forcing `Name`, and re-adding
`Picture_URL`.  `Fight_Time_Seconds` is an `int` and therefore never
equals one of the dropped sentinels, so it is always kept. -/
def finalStats (name : String) (profile_url : String) (doc : ProfileDoc) : AthleteRecord :=
  let picture_url := scrape_fighter_image doc.slotA doc.slotB name
  { Name := some name
    Profile_URL := keepVal profile_url
    Picture_URL := some picture_url
    Record := keepVal doc.recordTxt
    SLpM := keepVal doc.slpmTxt
    SApM := keepVal doc.sapmTxt
    TD_Avg := keepVal doc.tdTxt
    Sub_Avg := keepVal doc.subTxt
    Fight_Time := keepVal doc.ftimeTxt
    Fight_Time_Seconds := some (time_to_seconds doc.ftimeTxt) }

/-- Python `len(final_stats)`: number of keys present in the result dict (the
three keys `Division`/`Rank`/`Selected_Date` are never present at this
point of the pipeline). -/
def cntK {α : Type} (o : Option α) : Nat :=
  if o.isSome then 1 else 0

def numKeys (r : AthleteRecord) : Nat :=
  cntK r.Name + cntK r.Profile_URL + cntK r.Picture_URL + cntK r.Record +
    cntK r.SLpM + cntK r.SApM + cntK r.TD_Avg + cntK r.Sub_Avg +
    cntK r.Fight_Time + cntK r.Fight_Time_Seconds

/-- Model of `scrape_fighter_stats` after the network fetch: `doc = none` models a
fetch or parse failure; a falsy `profile_url` short-circuits to `None`;
otherwise the filtered stats survive only if more than 2 keys remain. -/
def scrape_fighter_stats (name : String) (profile_url : String)
    (doc : Option ProfileDoc) : Option AthleteRecord :=
  if profile_url = "" then none
  else
    match doc with
    | none => none
    | some d =>
      let fs := finalStats name profile_url d
      if numKeys fs > 2 then some fs else none

/-! ## `scrape_all_ranked_fighters_into_data` (lines 332-389) -/

/-- Python dict insertion: replace the value of an existing key in place,
otherwise append the new pair at the end. -/
def dictInsert {β : Type} : List (String × β) → String → β → List (String × β)
  | [], k, v => [(k, v)]
  | (k', v') :: t, k, v =>
    if k' = k then (k', v) :: t else (k', v') :: dictInsert t k v

/-- In-place mutation of the record stored under an existing key
(`game_data["fighter_data"][name].update(...)`); a missing key is left
alone (unreachable on the code path that uses this, where the lookup has
already succeeded). -/
def updateFirst : List (String × AthleteRecord) → String →
    (AthleteRecord → AthleteRecord) → List (String × AthleteRecord)
  | [], _, _ => []
  | (k', v) :: t, k, f =>
    if k' = k then (k', f v) :: t else (k', v) :: updateFirst t k f

/-- The `fighter_index` dict: map fighters by name, last one wins. -/
def buildIndex (fighters : List RankingEntry) : List (String × RankingEntry) :=
  fighters.foldl (fun idx f => dictInsert idx f.Name f) []

/-- The rescrape trigger (lines 358-363): no existing record, or falsy
`Record`, or falsy `Picture_URL`, or a `Picture_URL` that fails the
filename match against the name. -/
def should_rescrape (existing : Option AthleteRecord) (name : String) : Bool :=
  match existing with
  | none => true
  | some e =>
    !truthyO e.Record || !truthyO e.Picture_URL ||
      !filename_matches_fighter (e.Picture_URL.getD "") name

/-- Division/Rank/Profile_URL refresh applied to a kept record
(lines 368-372). -/
def refreshEntry (r : AthleteRecord) (info : RankingEntry) : AthleteRecord :=
  { r with Division := some info.Division, Rank := some info.Rank,
           Profile_URL := info.Profile_URL }

/-- Body of the per-fighter loop (lines 351-386).  `oracle` stands for
the network-dependent `scrape_fighter_stats` call: it is handed the name
and the entry's profile URL and returns the extracted stats, or `none`
on any fetch/parse/threshold failure. -/
def merge_step (oracle : String → Option String → Option AthleteRecord)
    (fd : List (String × AthleteRecord)) (e : String × RankingEntry) :
    List (String × AthleteRecord) :=
  let name := e.1
  let info := e.2
  if should_rescrape (List.lookup name fd) name then
    match oracle name info.Profile_URL with
    | some stats =>
      dictInsert fd name
        { stats with Division := some info.Division, Rank := some info.Rank }
    | none => fd
  else
    updateFirst fd name (fun r => refreshEntry r info)

/-- Model of `scrape_all_ranked_fighters_into_data`, with the roster fetch result
and the per-profile scrape passed in as data (both are network calls). -/
def scrape_all_ranked_fighters_into_data
    (oracle : String → Option String → Option AthleteRecord)
    (fighters : List RankingEntry) (game_data : GameState) : GameState :=
  if fighters.isEmpty then game_data
  else
    { game_data with
      fighter_data := (buildIndex fighters).foldl (merge_step oracle) game_data.fighter_data }

/-! ## `select_daily_fighter` (lines 392-438) -/

def PAST_DAYS_LIMIT : Nat := 7

/-- Observable outcome of a `select_daily_fighter` call: the early
"no fighter_data" return, the "no suitable data" return, or a successful
selection (recording whether the history amnesty fired on the way). -/
inductive SelectResult where
  | noData : SelectResult
  | noEligible : SelectResult
  | selected : String → Bool → SelectResult
  deriving DecidableEq, Inhabited

/-- Python `[name for name, data in all_fighters.items() if name not in past and data.get("Record")]`. -/
def eligibleNames (fd : List (String × AthleteRecord)) (past : List String) :
    List String :=
  (fd.filter (fun e => !past.contains e.1 && truthyO e.2.Record)).map (fun e => e.1)

/-- Python `game_data.get("daily_fighter", {}).get("Name")`. -/
def prevName (gs : GameState) : Option String :=
  gs.daily_fighter.bind (fun r => r.Name)

/-- The amnesty condition of lines 409-416: the first availability list
is empty (the enclosing code has already ensured `fighter_data` is
non-empty). -/
def amnestyFired (gs : GameState) : Bool :=
  (eligibleNames gs.fighter_data gs.past_fighters).isEmpty

/-- The availability list `random.choice` draws from: the original
eligible list, or — after the amnesty reset — every fighter with a
truthy `Record`. -/
def availAfterAmnesty (gs : GameState) : List String :=
  if amnestyFired gs then eligibleNames gs.fighter_data []
  else eligibleNames gs.fighter_data gs.past_fighters

/-- Model of `select_daily_fighter`.  `choice` models `random.choice` as an index
into the availability list (taken modulo its length), `now` models the
`datetime.utcnow().isoformat()` timestamp. -/
def select_daily_fighter (gs : GameState) (choice : Nat) (now : String) :
    GameState × SelectResult :=
  if gs.fighter_data.isEmpty then (gs, SelectResult.noData)
  else
    let amn := amnestyFired gs
    let past2 : List String := if amn then [] else gs.past_fighters
    let avail : List String := availAfterAmnesty gs
    if avail.isEmpty then ({ gs with past_fighters := past2 }, SelectResult.noEligible)
    else
      let chosen_name := avail.getD (choice % avail.length) ""
      let pf1 :=
        match prevName gs with
        | some p => if p ≠ "" ∧ ¬ past2.contains p then past2 ++ [p] else past2
        | none => past2
      let pf2 := pf1.drop (pf1.length - PAST_DAYS_LIMIT)
      let stamp := fun r => { r with Selected_Date := some (now ++ "Z") }
      let chosen := stamp ((List.lookup chosen_name gs.fighter_data).getD default)
      ({ daily_fighter := some chosen
         past_fighters := pf2
         fighter_data := updateFirst gs.fighter_data chosen_name stamp },
       SelectResult.selected chosen_name amn)

/-! ## Spec-side predicates

These follow the wording of the specification ("every name token appears
as a substring of the normalized filename", "first character is a digit,
or the upper-cased text equals P4P or C") and are compared against the
definitions extracted from the code. -/

/-- The spec's matching condition for a candidate URL: every
whitespace-delimited token of the name, normalized, occurs in the
normalized last path segment of the URL. -/
def specTokenMatch (url name : String) : Prop :=
  ∀ p ∈ pyTokens name, segOccurs (normalizeL p) (normalizeL (lastSegment url)) = true

instance (url name : String) : Decidable (specTokenMatch url name) :=
  List.decidableBAll _ _

/-- The spec's matching condition lifted to a possibly-absent slot: the
slot holds a non-empty URL and that URL matches. -/
def specMatchO (o : Option String) (name : String) : Prop :=
  o.getD "" ≠ "" ∧ specTokenMatch (o.getD "") name

instance (o : Option String) (name : String) : Decidable (specMatchO o name) := by
  unfold specMatchO
  infer_instance

/-- The spec's row-acceptance condition: the rank text's first character
is a digit, or its upper-cased text equals `"P4P"` or `"C"`. -/
def specRankIncluded (rt : String) : Prop :=
  (∃ c, rt.data.head? = some c ∧ c.isDigit = true) ∨
    pyUpper rt = "P4P" ∨ pyUpper rt = "C"

instance (rt : String) : Decidable (specRankIncluded rt) := by
  unfold specRankIncluded
  refine @instDecidableOr _ _ ?_ inferInstance
  cases h : rt.data.head? with
  | none => exact isFalse (by simp [h])
  | some c => exact decidable_of_iff (c.isDigit = true) (by simp [h])

/-- The stat fields of a stored record: everything except
Division/Rank/Profile_URL (refreshed by the merge) and Selected_Date
(stamped by the selector). -/
def statFields (r : AthleteRecord) :
    Option String × Option String × Option String × Option String ×
      Option String × Option String × Option Int × Option String :=
  (r.Record, r.SLpM, r.SApM, r.TD_Avg, r.Sub_Avg, r.Fight_Time,
    r.Fight_Time_Seconds, r.Picture_URL)

/-- At least one real stat beyond Name/Picture_URL survived extraction. -/
def hasRealStat (r : AthleteRecord) : Prop :=
  r.Record.isSome = true ∨ r.SLpM.isSome = true ∨ r.SApM.isSome = true ∨
    r.TD_Avg.isSome = true ∨ r.Sub_Avg.isSome = true ∨
    r.Fight_Time.isSome = true ∨ r.Fight_Time_Seconds.isSome = true

/-! ## Concrete states used by individual claims -/

/-- A state whose only fighter has no `Record` field while the history is
non-empty (claim C1). -/
def gsNoRecord : GameState :=
  ⟨none, ["x"], [("y", { Name := some "y" })]⟩

/-- A fighter record with a Record field, for rotation traces. -/
def rotRec (n : String) : AthleteRecord :=
  { Name := some n, Record := some "10-2" }

/-- Three eligible fighters, empty history, empty daily pick (claim C2). -/
def gsThree : GameState :=
  ⟨none, [], [("a", rotRec "a"), ("b", rotRec "b"), ("c", rotRec "c")]⟩

/-- The C2 trace with maximally distinct picks: a, b, c. -/
def gsThree1 : GameState := (select_daily_fighter gsThree 0 "d1").1

def gsThree2 : GameState := (select_daily_fighter gsThree1 1 "d2").1

def gsThree3 : GameState := (select_daily_fighter gsThree2 1 "d3").1

def gsThree4 : GameState := (select_daily_fighter gsThree3 0 "d4").1

/-- A state with one name in the history and two eligible fighters
(witness for claim C7). -/
def gsPastOne : GameState :=
  ⟨some (rotRec "q"), ["p"], [("q", rotRec "q"), ("r", rotRec "r")]⟩

/-- A scrape oracle that always fails (witness for claim C6). -/
def oracleNone : String → Option String → Option AthleteRecord :=
  fun _ _ => none

/-- A roster entry and a complete, match-passing stored record
(witness for claim C6). -/
def entryAlpha : RankingEntry :=
  ⟨"Alpha One", "Lightweight", "1", some "https://www.ufc.com/athlete/alpha-one"⟩

def recAlpha : AthleteRecord :=
  { Name := some "Alpha One", Record := some "10-2",
    Picture_URL := some "https://img.example/alpha-one.png",
    SLpM := some "4.50", Division := some "Welterweight", Rank := some "3" }

def gsAlpha : GameState := ⟨none, [], [("Alpha One", recAlpha)]⟩

/-- Proof device for claim C6: the effect of the merge fold on a record
that never triggers a rescrape is a sequence of Division/Rank/URL
refreshes. -/
def refreshStep (name : String) (acc : AthleteRecord) (e : String × RankingEntry) :
    AthleteRecord :=
  if e.1 = name then refreshEntry acc e.2 else acc

/-! ## Helper lemmas -/

/-- For a non-empty URL the code's Boolean match agrees with the spec's
token condition. -/
theorem filename_matches_iff (url name : String) (h : url ≠ "") :
    filename_matches_fighter url name = true ↔ specTokenMatch url name := by
  unfold filename_matches_fighter
  rw [if_neg h, List.all_eq_true]
  rfl

/-- Slot-level version: the code's match on `slot.getD ""` agrees with
`specMatchO`. -/
theorem filename_matches_slot_iff (o : Option String) (name : String) :
    filename_matches_fighter (o.getD "") name = true ↔ specMatchO o name := by
  by_cases h : o.getD "" = ""
  · rw [h]
    unfold filename_matches_fighter specMatchO
    simp [h]
  · rw [filename_matches_iff _ name h]
    unfold specMatchO
    exact (and_iff_right h).symm

/-- The head-character digit test, in spec form. -/
theorem firstIsDigit_iff (s : String) :
    firstIsDigit s = true ↔ (∃ c, s.data.head? = some c ∧ c.isDigit = true) := by
  cases s with
  | mk l =>
    cases l with
    | nil => simp [firstIsDigit]
    | cons c t => simp [firstIsDigit]

/-! ## Claim theorems -/

/-- Claim C9 (code_bug evidence): `time_to_seconds` reproduces every spec
example, but on the input `"-5:30"` it returns the negative value `-270`,
contradicting the claimed non-negativity (and the function's own
"0 if invalid" contract). -/
theorem time_to_seconds_examples_and_negative :
    time_to_seconds "12:34" = 754 ∧ time_to_seconds "" = 0 ∧
    time_to_seconds "bad" = 0 ∧ time_to_seconds "1:2:3" = 0 ∧
    time_to_seconds "-5:30" = -270 ∧ time_to_seconds "-5:30" < 0 := by
  decide

/-- Claim C5 (counterexample): for the empty candidate URL and a name
with no whitespace tokens, the code's predicate is `false` although the
claimed token condition holds vacuously, so the stated "if and only if"
fails at `url = ""`, `name = ""`. -/
theorem match_iff_fails_on_empty_url :
    filename_matches_fighter "" "" = false ∧ specTokenMatch "" "" := by
  refine ⟨by decide, by decide⟩

/-- Claim C5 (amended): for every NON-empty candidate URL the predicate
holds iff every normalized name token occurs in the normalized last path
segment; an empty (absent) candidate never matches; and the two spec
examples behave as stated. -/
theorem filename_match_characterization :
    (∀ url name : String, url ≠ "" →
      (filename_matches_fighter url name = true ↔ specTokenMatch url name)) ∧
    (∀ name : String, filename_matches_fighter "" name = false) ∧
    filename_matches_fighter "jiri-prochazka-123.png" "Jiri Prochazka" = true ∧
    filename_matches_fighter "other-fighter.png" "Jiri Prochazka" = false := by
  refine ⟨filename_matches_iff, ?_, by decide, by decide⟩
  intro name
  unfold filename_matches_fighter
  rw [if_pos rfl]

/-- Claim C5 witness: the amended equivalence applied at the spec's own
example input. -/
theorem filename_match_characterization_witness :
    specTokenMatch "jiri-prochazka-123.png" "Jiri Prochazka" :=
  (filename_match_characterization.1 "jiri-prochazka-123.png" "Jiri Prochazka"
    (by decide)).mp (by decide)

/-- Claim C4: the image resolver returns slot A when it matches the name
(in the spec's token sense), else slot B when that matches, else slot A
verbatim when slot A is present (truthy), else the `"N/A"` sentinel. -/
theorem image_resolution_order (slot_a slot_b : Option String) (name : String) :
    (specMatchO slot_a name →
      scrape_fighter_image slot_a slot_b name = slot_a.getD "") ∧
    (¬ specMatchO slot_a name → specMatchO slot_b name →
      scrape_fighter_image slot_a slot_b name = slot_b.getD "") ∧
    (¬ specMatchO slot_a name → ¬ specMatchO slot_b name → slot_a.getD "" ≠ "" →
      scrape_fighter_image slot_a slot_b name = slot_a.getD "") ∧
    (¬ specMatchO slot_a name → ¬ specMatchO slot_b name → slot_a.getD "" = "" →
      scrape_fighter_image slot_a slot_b name = "N/A") := by
  have ha := filename_matches_slot_iff slot_a name
  have hb := filename_matches_slot_iff slot_b name
  refine ⟨?_, ?_, ?_, ?_⟩
  · intro h1
    unfold scrape_fighter_image
    rw [if_pos (ha.mpr h1)]
  · intro h1 h2
    unfold scrape_fighter_image
    rw [if_neg (fun hh => h1 (ha.mp hh)), if_pos (hb.mpr h2)]
  · intro h1 h2 h3
    unfold scrape_fighter_image
    rw [if_neg (fun hh => h1 (ha.mp hh)), if_neg (fun hh => h2 (hb.mp hh)),
      if_pos (by simpa [truthyO] using h3)]
  · intro h1 h2 h3
    unfold scrape_fighter_image
    rw [if_neg (fun hh => h1 (ha.mp hh)), if_neg (fun hh => h2 (hb.mp hh)),
      if_neg (by simp [truthyO, h3])]

/-- Claim C4 witness: a matching slot A is returned. -/
theorem image_resolution_order_witness :
    scrape_fighter_image (some "jiri-prochazka-123.png") none "Jiri Prochazka" =
      "jiri-prochazka-123.png" :=
  (image_resolution_order (some "jiri-prochazka-123.png") none "Jiri Prochazka").1
    (by decide)

/-- Claim C10: a name with no whitespace tokens matches every non-empty
URL vacuously; consequently a record with truthy Record and Picture_URL
never triggers a rescrape for such a name, and any present image slot is
accepted as a match by the resolver. -/
theorem empty_name_vacuous_match (name url : String) (slot_a slot_b : Option String)
    (r : AthleteRecord) (h : pyTokens name = []) :
    (url ≠ "" → filename_matches_fighter url name = true) ∧
    (truthyO r.Record = true → truthyO r.Picture_URL = true →
      should_rescrape (some r) name = false) ∧
    (slot_a.getD "" ≠ "" → scrape_fighter_image slot_a slot_b name = slot_a.getD "") ∧
    (slot_a.getD "" = "" → slot_b.getD "" ≠ "" →
      scrape_fighter_image slot_a slot_b name = slot_b.getD "") := by
  have key : ∀ u : String, u ≠ "" → filename_matches_fighter u name = true := by
    intro u hu
    unfold filename_matches_fighter
    rw [if_neg hu, h]
    rfl
  refine ⟨key url, ?_, ?_, ?_⟩
  · intro h1 h2
    have hm : filename_matches_fighter (r.Picture_URL.getD "") name = true :=
      key _ (by simpa [truthyO] using h2)
    simp [should_rescrape, h1, h2, hm]
  · intro ha
    unfold scrape_fighter_image
    rw [if_pos (key _ ha)]
  · intro ha hb
    have hm0 : filename_matches_fighter (slot_a.getD "") name = false := by
      rw [ha]
      unfold filename_matches_fighter
      rw [if_pos rfl]
    unfold scrape_fighter_image
    rw [hm0]
    simp only [Bool.false_eq_true, if_false]
    rw [if_pos (key _ hb)]

/-- Claim C10 witness: the all-whitespace name `" "` has no tokens, and
the consequences hold at concrete slots and record. -/
theorem empty_name_vacuous_match_witness :
    (("x.png" : String) ≠ "" → filename_matches_fighter "x.png" " " = true) ∧
    (truthyO recAlpha.Record = true → truthyO recAlpha.Picture_URL = true →
      should_rescrape (some recAlpha) " " = false) ∧
    ((some "s.png" : Option String).getD "" ≠ "" →
      scrape_fighter_image (some "s.png") none " " = (some "s.png" : Option String).getD "") ∧
    ((some "s.png" : Option String).getD "" = "" → (none : Option String).getD "" ≠ "" →
      scrape_fighter_image (some "s.png") none " " = (none : Option String).getD "") :=
  empty_name_vacuous_match " " "x.png" (some "s.png") none recAlpha (by decide)

/-- Claim C8: a ranked row carrying both a rank cell and a name link is
accepted exactly when the rank text's first character is a digit or its
upper-cased text is `"P4P"` or `"C"`; ranks `"3"` and `"P4P"` are
accepted, `"NR"` is not. -/
theorem ranked_row_acceptance (division rt nt href : String) :
    ((processRow division ⟨some rt, some (nt, href)⟩).isSome = true ↔
      specRankIncluded rt) ∧
    (processRow division ⟨some "3", some (nt, href)⟩).isSome = true ∧
    (processRow division ⟨some "P4P", some (nt, href)⟩).isSome = true ∧
    (processRow division ⟨some "NR", some (nt, href)⟩).isSome = false := by
  have main : ∀ s : String,
      (processRow division ⟨some s, some (nt, href)⟩).isSome = true ↔
        specRankIncluded s := by
    intro s
    by_cases h0 : s = ""
    · subst h0
      refine iff_of_false ?_ (by decide)
      show (if ("" : String) = "" then none
          else if ¬ firstIsDigit "" = true ∧ pyUpper "" ≠ "P4P" ∧ pyUpper "" ≠ "C" then
            none
          else some (⟨nt, division, "", resolveHref href⟩ : RankingEntry)).isSome ≠ true
      rw [if_pos rfl]
      simp
    · show (if s = "" then none
          else if ¬ firstIsDigit s = true ∧ pyUpper s ≠ "P4P" ∧ pyUpper s ≠ "C" then
            none
          else some (⟨nt, division, s, resolveHref href⟩ : RankingEntry)).isSome = true ↔
          specRankIncluded s
      rw [if_neg h0]
      by_cases h1 : ¬ firstIsDigit s = true ∧ pyUpper s ≠ "P4P" ∧ pyUpper s ≠ "C"
      · rw [if_pos h1]
        refine iff_of_false (by simp) ?_
        rintro (hd | hp | hc)
        · exact h1.1 ((firstIsDigit_iff s).mpr hd)
        · exact h1.2.1 hp
        · exact h1.2.2 hc
      · rw [if_neg h1]
        refine iff_of_true (by simp) ?_
        by_cases hd : firstIsDigit s = true
        · exact Or.inl ((firstIsDigit_iff s).mp hd)
        · by_cases hp : pyUpper s = "P4P"
          · exact Or.inr (Or.inl hp)
          · refine Or.inr (Or.inr ?_)
            by_contra hc
            exact h1 ⟨hd, hp, hc⟩
  refine ⟨main rt, (main "3").mpr (by decide), (main "P4P").mpr (by decide), ?_⟩
  rw [← Bool.not_eq_true]
  intro hh
  exact absurd ((main "NR").mp hh) (by decide)

/-- Claim C3: for every fetched, parsed profile document the extraction
result is `some` and always contains at least one field from the claimed
real-stat list (`Fight_Time_Seconds` is an integer and always survives
the sentinel filter), so "returns `None` iff no real stat survives"
holds with both sides false. -/
theorem insufficient_fields_iff (name profile_url : String) (d : ProfileDoc)
    (h : profile_url ≠ "") :
    scrape_fighter_stats name profile_url (some d) =
      some (finalStats name profile_url d) ∧
    hasRealStat (finalStats name profile_url d) ∧
    (scrape_fighter_stats name profile_url (some d) = none ↔
      ¬ hasRealStat (finalStats name profile_url d)) := by
  have hk : numKeys (finalStats name profile_url d) > 2 := by
    simp only [numKeys, finalStats, cntK]
    simp only [Option.isSome_some, if_true]
    omega
  have hs : scrape_fighter_stats name profile_url (some d) =
      some (finalStats name profile_url d) := by
    unfold scrape_fighter_stats
    rw [if_neg h]
    show (if numKeys (finalStats name profile_url d) > 2 then
      some (finalStats name profile_url d) else none) = _
    rw [if_pos hk]
  have hr : hasRealStat (finalStats name profile_url d) := by
    unfold hasRealStat
    refine Or.inr (Or.inr (Or.inr (Or.inr (Or.inr (Or.inr ?_)))))
    simp [finalStats]
  exact ⟨hs, hr, iff_of_false (by rw [hs]; simp) (fun hh => hh hr)⟩

/-- Claim C3 witness: a document where every stat XPath came back
`"N/A"` still yields a successful extraction containing
`Fight_Time_Seconds`. -/
theorem insufficient_fields_iff_witness :
    scrape_fighter_stats "n" "u" (some ({} : ProfileDoc)) =
      some (finalStats "n" "u" ({} : ProfileDoc)) ∧
    hasRealStat (finalStats "n" "u" ({} : ProfileDoc)) ∧
    (scrape_fighter_stats "n" "u" (some ({} : ProfileDoc)) = none ↔
      ¬ hasRealStat (finalStats "n" "u" ({} : ProfileDoc))) :=
  insufficient_fields_iff "n" "u" {} (by decide)

/-- The truncated history window is always short and duplicate-free. -/
theorem drop_window (l : List String) (hnd : l.Nodup) :
    (l.drop (l.length - PAST_DAYS_LIMIT)).length ≤ PAST_DAYS_LIMIT ∧
      (l.drop (l.length - PAST_DAYS_LIMIT)).Nodup := by
  constructor
  · rw [List.length_drop]
    unfold PAST_DAYS_LIMIT
    omega
  · exact hnd.sublist (List.drop_sublist _ _)

/-- Appending a fresh name keeps the history duplicate-free. -/
theorem nodup_append_fresh (l : List String) (p : String) (hnd : l.Nodup)
    (hp : p ∉ l) : (l ++ [p]).Nodup := by
  rw [List.nodup_append]
  exact ⟨hnd, List.nodup_singleton p, by simpa [List.disjoint_singleton] using hp⟩

/-- Claim C1 (counterexample): with one record lacking a `Record` field
and a non-empty history, the selector signals `noEligible` but does NOT
leave the state unchanged: the amnesty step has already cleared
`past_fighters`. -/
theorem no_eligible_not_noop :
    (select_daily_fighter gsNoRecord 0 "t").2 = SelectResult.noEligible ∧
    (select_daily_fighter gsNoRecord 0 "t").1 ≠ gsNoRecord ∧
    (select_daily_fighter gsNoRecord 0 "t").1.past_fighters = [] ∧
    gsNoRecord.past_fighters = ["x"] := by
  decide

/-- Claim C1 (amended): when `fighter_data` is non-empty but no record
has a truthy `Record` field, the selector signals `noEligible`, leaves
`daily_fighter` and `fighter_data` unchanged, and resets `past_fighters`
to empty (the amnesty reset is not rolled back). -/
theorem no_eligible_resets_history (gs : GameState) (choice : Nat) (now : String)
    (h1 : gs.fighter_data ≠ [])
    (h2 : ∀ e ∈ gs.fighter_data, truthyO e.2.Record = false) :
    select_daily_fighter gs choice now =
      ({ gs with past_fighters := [] }, SelectResult.noEligible) := by
  have hne : gs.fighter_data.isEmpty = false := by
    simpa [List.isEmpty_iff] using h1
  have hel : ∀ past, eligibleNames gs.fighter_data past = [] := by
    intro past
    unfold eligibleNames
    rw [List.filter_eq_nil_iff.mpr ?_]
    · rfl
    · intro e he
      simp [h2 e he]
  simp [select_daily_fighter, amnestyFired, availAfterAmnesty, hne, hel]

/-- Claim C1 witness: the amended statement at the concrete
counterexample state. -/
theorem no_eligible_resets_history_witness :
    select_daily_fighter gsNoRecord 0 "t" =
      ({ gsNoRecord with past_fighters := [] }, SelectResult.noEligible) :=
  no_eligible_resets_history gsNoRecord 0 "t" (by decide) (by decide)

/-- Claim C7: a `select_daily_fighter` call preserves the invariant that
`past_fighters` has at most `PAST_DAYS_LIMIT = 7` entries and no
duplicate names. -/
theorem past_fighters_invariant (gs : GameState) (choice : Nat) (now : String)
    (hlen : gs.past_fighters.length ≤ PAST_DAYS_LIMIT)
    (hnd : gs.past_fighters.Nodup) :
    (select_daily_fighter gs choice now).1.past_fighters.length ≤ PAST_DAYS_LIMIT ∧
      (select_daily_fighter gs choice now).1.past_fighters.Nodup := by
  unfold select_daily_fighter
  by_cases hA : gs.fighter_data.isEmpty = true
  · simp only [hA, if_true]
    exact ⟨hlen, hnd⟩
  · simp only [hA, if_false, Bool.false_eq_true]
    set past2 : List String :=
      if amnestyFired gs then [] else gs.past_fighters with hpast2
    have hp2 : past2.length ≤ PAST_DAYS_LIMIT ∧ past2.Nodup := by
      rw [hpast2]
      split
      · exact ⟨by simp [PAST_DAYS_LIMIT], List.nodup_nil⟩
      · exact ⟨hlen, hnd⟩
    set avail : List String := availAfterAmnesty gs with havail
    by_cases hB : avail.isEmpty = true
    · simp only [hB, if_true]
      exact hp2
    · simp only [hB, if_false, Bool.false_eq_true]
      have hpf1 : ∀ pf1 : List String,
          (pf1 = past2 ∨ ∃ p, pf1 = past2 ++ [p] ∧ p ∉ past2) →
          (pf1.drop (pf1.length - PAST_DAYS_LIMIT)).length ≤ PAST_DAYS_LIMIT ∧
            (pf1.drop (pf1.length - PAST_DAYS_LIMIT)).Nodup := by
        rintro pf1 (rfl | ⟨p, rfl, hp⟩)
        · exact drop_window past2 hp2.2
        · exact drop_window _ (nodup_append_fresh past2 p hp2.2 hp)
      cases hprev : prevName gs with
      | none => exact hpf1 past2 (Or.inl rfl)
      | some p =>
        have hred : (match some p with
            | some q => if q ≠ "" ∧ ¬ past2.contains q = true then past2 ++ [q] else past2
            | none => past2) =
            if p ≠ "" ∧ ¬ past2.contains p = true then past2 ++ [p] else past2 := rfl
        rw [hred]
        by_cases hc : p ≠ "" ∧ ¬ past2.contains p = true
        · rw [if_pos hc]
          refine hpf1 (past2 ++ [p]) (Or.inr ⟨p, rfl, ?_⟩)
          simpa [List.contains, List.elem_iff] using hc.2
        · rw [if_neg hc]
          exact hpf1 past2 (Or.inl rfl)

/-- Claim C7 witness: the invariant holds after a call on a concrete
state with one past name and two eligible fighters. -/
theorem past_fighters_invariant_witness :
    (select_daily_fighter gsPastOne 0 "t").1.past_fighters.length ≤ PAST_DAYS_LIMIT ∧
      (select_daily_fighter gsPastOne 0 "t").1.past_fighters.Nodup :=
  past_fighters_invariant gsPastOne 0 "t" (by decide) (by decide)

/-- The selection outcome depends on the random index only modulo the
size of the availability pool. -/
theorem select_choice_mod (gs : GameState) (k : Nat) (now : String) :
    select_daily_fighter gs k now =
      select_daily_fighter gs (k % (availAfterAmnesty gs).length) now := by
  simp only [select_daily_fighter]
  rw [Nat.mod_mod_of_dvd k dvd_rfl]

/-- Claim C2 (counterexample): starting from 3 eligible fighters with
empty history and empty daily pick, the second call may choose the same
name as the first (the first pick only enters `past_fighters` during the
second call), so only 2 picks — not 3 distinct ones — suffice for a
repeat. -/
theorem rotation_repeat_counterexample :
    gsThree1 = (select_daily_fighter gsThree 0 "d1").1 ∧
    (select_daily_fighter gsThree 0 "d1").2 = SelectResult.selected "a" false ∧
    (select_daily_fighter gsThree1 0 "d2").2 = SelectResult.selected "a" false := by
  decide

/-- Claim C2 (amended): the no-repeat window lags one call behind.  In
the maximally-distinct trace a, b, c the first three calls pick three
distinct names with no amnesty; after the third call the history holds
only `["a", "b"]`, so the 4th call is forced to repeat `"c"` (for every
random index) and still fires no amnesty; only the 5th call — when the
history holds all three names — performs the amnesty reset and selects
from the whole pool again. -/
theorem rotation_window_lags_one_call :
    (select_daily_fighter gsThree 0 "d1").2 = SelectResult.selected "a" false ∧
    (select_daily_fighter gsThree1 1 "d2").2 = SelectResult.selected "b" false ∧
    (select_daily_fighter gsThree2 1 "d3").2 = SelectResult.selected "c" false ∧
    gsThree3.past_fighters = ["a", "b"] ∧
    (∀ k : Nat, (select_daily_fighter gsThree3 k "d4").2 =
      SelectResult.selected "c" false) ∧
    gsThree4.past_fighters = ["a", "b", "c"] ∧
    (∀ k : Nat, (select_daily_fighter gsThree4 k "d5").2 =
      SelectResult.selected (["a", "b", "c"].getD (k % 3) "") true) := by
  refine ⟨by decide, by decide, by decide, by decide, ?_, by decide, ?_⟩
  · intro k
    rw [select_choice_mod gsThree3 k "d4",
      show (availAfterAmnesty gsThree3).length = 1 from by decide, Nat.mod_one]
    decide
  · intro k
    rw [select_choice_mod gsThree4 k "d5",
      show (availAfterAmnesty gsThree4).length = 3 from by decide]
    have h3 : k % 3 = 0 ∨ k % 3 = 1 ∨ k % 3 = 2 := by omega
    rcases h3 with h | h | h <;> rw [h] <;> decide

/-- Inserting under a different key does not change a lookup. -/
theorem lookup_dictInsert_ne {β : Type} (l : List (String × β)) (k : String) (v : β)
    (name : String) (hk : k ≠ name) :
    List.lookup name (dictInsert l k v) = List.lookup name l := by
  have hb0 : (name == k) = false := beq_eq_false_iff_ne.mpr (fun h => hk h.symm)
  induction l with
  | nil => simp [dictInsert, List.lookup, hb0]
  | cons e t ih =>
    rcases e with ⟨k', v'⟩
    simp only [dictInsert]
    by_cases hkk : k' = k
    · subst hkk
      simp [List.lookup, hb0]
    · rw [if_neg hkk]
      simp only [List.lookup]
      cases hb : (name == k') with
      | true => rfl
      | false => exact ih

/-- Updating under a different key does not change a lookup. -/
theorem lookup_updateFirst_ne (fd : List (String × AthleteRecord)) (k : String)
    (f : AthleteRecord → AthleteRecord) (name : String) (hk : k ≠ name) :
    List.lookup name (updateFirst fd k f) = List.lookup name fd := by
  induction fd with
  | nil => rfl
  | cons e t ih =>
    rcases e with ⟨k', v'⟩
    simp only [updateFirst]
    by_cases hkk : k' = k
    · subst hkk
      rw [if_pos rfl]
      have hb : (name == k') = false := beq_eq_false_iff_ne.mpr (fun h => hk h.symm)
      simp [List.lookup, hb]
    · rw [if_neg hkk]
      simp only [List.lookup]
      cases hb : (name == k') with
      | true => rfl
      | false => exact ih

/-- Updating under the found key rewrites exactly the looked-up record. -/
theorem lookup_updateFirst_eq (fd : List (String × AthleteRecord)) (name : String)
    (f : AthleteRecord → AthleteRecord) (r : AthleteRecord)
    (h : List.lookup name fd = some r) :
    List.lookup name (updateFirst fd name f) = some (f r) := by
  induction fd with
  | nil => simp [List.lookup] at h
  | cons e t ih =>
    rcases e with ⟨k', v'⟩
    simp only [updateFirst]
    by_cases hkk : k' = name
    · subst hkk
      rw [if_pos rfl]
      have hb : (k' == k') = true := by simp
      simp only [List.lookup, hb] at h ⊢
      rw [Option.some_inj.mp h]
    · rw [if_neg hkk]
      have hb : (name == k') = false := beq_eq_false_iff_ne.mpr (fun hh => hkk hh.symm)
      simp only [List.lookup, hb] at h ⊢
      exact ih h

/-- The no-rescrape conditions of claim C6, bundled. -/
theorem should_rescrape_false (name : String) (r : AthleteRecord)
    (h1 : truthyO r.Record = true) (h2 : truthyO r.Picture_URL = true)
    (h3 : filename_matches_fighter (r.Picture_URL.getD "") name = true) :
    should_rescrape (some r) name = false := by
  simp [should_rescrape, h1, h2, h3]

/-- Through the whole merge fold, a record that satisfies the
no-rescrape conditions is only ever touched by `refreshEntry`. -/
theorem merge_fold_lookup (oracle : String → Option String → Option AthleteRecord)
    (name : String) (l : List (String × RankingEntry)) :
    ∀ (fd : List (String × AthleteRecord)) (r : AthleteRecord),
      List.lookup name fd = some r →
      truthyO r.Record = true → truthyO r.Picture_URL = true →
      filename_matches_fighter (r.Picture_URL.getD "") name = true →
      List.lookup name (l.foldl (merge_step oracle) fd) =
        some (l.foldl (refreshStep name) r) := by
  induction l with
  | nil =>
    intro fd r h _ _ _
    simpa using h
  | cons e t ih =>
    intro fd r h h1 h2 h3
    rcases e with ⟨k, info⟩
    rw [List.foldl_cons, List.foldl_cons]
    by_cases hk : k = name
    · subst hk
      have hstep : merge_step oracle fd (k, info) =
          updateFirst fd k (fun r => refreshEntry r info) := by
        simp only [merge_step]
        rw [h, if_neg (by simp [should_rescrape_false k r h1 h2 h3])]
      have hrs : refreshStep k r (k, info) = refreshEntry r info := by
        simp [refreshStep]
      rw [hstep, hrs]
      exact ih _ (refreshEntry r info)
        (lookup_updateFirst_eq fd k _ r h) h1 h2 h3
    · have hstep_ne : List.lookup name (merge_step oracle fd (k, info)) =
          List.lookup name fd := by
        simp only [merge_step]
        split
        · split
          · exact lookup_dictInsert_ne fd k _ name hk
          · rfl
        · exact lookup_updateFirst_ne fd k _ name hk
      have hrs : refreshStep name r (k, info) = r := by
        simp [refreshStep, hk]
      rw [hrs]
      exact ih _ r (by rw [hstep_ne]; exact h) h1 h2 h3

/-- If a name never occurs in the entry list, the refresh fold is the
identity. -/
theorem foldl_refresh_not_mem (name : String) (l : List (String × RankingEntry)) :
    ∀ (r : AthleteRecord), name ∉ l.map Prod.fst →
      l.foldl (refreshStep name) r = r := by
  induction l with
  | nil => intro r _; rfl
  | cons e t ih =>
    intro r hmem
    rw [List.map_cons, List.mem_cons] at hmem
    push_neg at hmem
    rw [List.foldl_cons]
    have hone : refreshStep name r e = r := by
      unfold refreshStep
      exact if_neg (fun hh => hmem.1 hh.symm)
    rw [hone]
    exact ih r hmem.2

/-- Over an entry list with duplicate-free keys, the refresh fold applies
the (unique) entry for the name, if any. -/
theorem foldl_refresh_eq (name : String) (l : List (String × RankingEntry)) :
    ∀ (r : AthleteRecord), (l.map Prod.fst).Nodup →
      l.foldl (refreshStep name) r =
        (match List.lookup name l with
          | some info => refreshEntry r info
          | none => r) := by
  induction l with
  | nil => intro r _; rfl
  | cons e t ih =>
    intro r hnd
    rcases e with ⟨k, info⟩
    rw [List.map_cons, List.nodup_cons] at hnd
    rw [List.foldl_cons]
    by_cases hk : k = name
    · subst hk
      have hstep : refreshStep k r (k, info) = refreshEntry r info := by
        simp [refreshStep]
      have hb : (k == k) = true := by simp
      rw [hstep, foldl_refresh_not_mem k t _ hnd.1]
      simp [List.lookup, hb]
    · have hstep : refreshStep name r (k, info) = r := by
        simp [refreshStep, hk]
      have hb : (name == k) = false := beq_eq_false_iff_ne.mpr (fun h => hk h.symm)
      rw [hstep, ih r hnd.2]
      simp [List.lookup, hb]

/-- The key list produced by a dict insertion. -/
theorem keys_dictInsert {β : Type} (l : List (String × β)) (k : String) (v : β) :
    (dictInsert l k v).map Prod.fst =
      if k ∈ l.map Prod.fst then l.map Prod.fst else l.map Prod.fst ++ [k] := by
  induction l with
  | nil => simp [dictInsert]
  | cons e t ih =>
    rcases e with ⟨k', v'⟩
    simp only [dictInsert]
    by_cases hkk : k' = k
    · subst hkk
      rw [if_pos rfl]
      simp
    · rw [if_neg hkk, List.map_cons, List.map_cons, ih]
      by_cases hmem : k ∈ t.map Prod.fst
      · rw [if_pos hmem, if_pos (by simp [hmem])]
      · have hnk : ¬ k ∈ (k', v').1 :: List.map Prod.fst t := by
          simp only [List.mem_cons]
          push_neg
          exact ⟨fun hh => hkk hh.symm, hmem⟩
        rw [if_neg hmem, if_neg hnk, List.cons_append]

/-- Dict insertion preserves duplicate-freedom of the keys. -/
theorem nodup_keys_dictInsert {β : Type} (l : List (String × β)) (k : String) (v : β)
    (h : (l.map Prod.fst).Nodup) : ((dictInsert l k v).map Prod.fst).Nodup := by
  rw [keys_dictInsert]
  by_cases hmem : k ∈ l.map Prod.fst
  · rwa [if_pos hmem]
  · rw [if_neg hmem]
    exact nodup_append_fresh _ k h hmem

/-- The `fighter_index` key list is duplicate-free. -/
theorem nodup_keys_buildIndex (fighters : List RankingEntry) :
    ((buildIndex fighters).map Prod.fst).Nodup := by
  have aux : ∀ (l : List RankingEntry) (acc : List (String × RankingEntry)),
      (acc.map Prod.fst).Nodup →
      ((l.foldl (fun idx f => dictInsert idx f.Name f) acc).map Prod.fst).Nodup := by
    intro l
    induction l with
    | nil => intro acc h; exact h
    | cons f t ih =>
      intro acc h
      rw [List.foldl_cons]
      exact ih _ (nodup_keys_dictInsert acc f.Name f h)
  exact aux fighters [] List.nodup_nil

/-- Claim C6: an already-complete, match-passing record survives the
merge with all stat fields (Record, SLpM, SApM, TD_Avg, Sub_Avg,
Fight_Time, Fight_Time_Seconds, Picture_URL) unchanged; only
Division/Rank/Profile_URL are refreshed from the roster entry indexed
under its name (and nothing at all changes if the roster has no entry
for the name).  The scrape oracle is never consulted for it, so a rerun
on an unchanged roster is idempotent on the stat fields. -/
theorem merge_keeps_complete_records
    (oracle : String → Option String → Option AthleteRecord)
    (fighters : List RankingEntry) (gd : GameState) (name : String)
    (r : AthleteRecord)
    (h : List.lookup name gd.fighter_data = some r)
    (h1 : truthyO r.Record = true) (h2 : truthyO r.Picture_URL = true)
    (h3 : filename_matches_fighter (r.Picture_URL.getD "") name = true) :
    ∃ r', List.lookup name
        (scrape_all_ranked_fighters_into_data oracle fighters gd).fighter_data =
          some r' ∧
      statFields r' = statFields r ∧
      (∀ info, List.lookup name (buildIndex fighters) = some info →
        r'.Division = some info.Division ∧ r'.Rank = some info.Rank ∧
          r'.Profile_URL = info.Profile_URL) ∧
      (List.lookup name (buildIndex fighters) = none → r' = r) := by
  by_cases hf : fighters.isEmpty = true
  · have hnil : fighters = [] := by
      cases fighters with
      | nil => rfl
      | cons a t => simp at hf
    subst hnil
    refine ⟨r, ?_, rfl, ?_, fun _ => rfl⟩
    · simp [scrape_all_ranked_fighters_into_data, h]
    · intro info hinfo
      simp [buildIndex, List.lookup] at hinfo
  · have hmain := merge_fold_lookup oracle name (buildIndex fighters)
      gd.fighter_data r h h1 h2 h3
    rw [foldl_refresh_eq name (buildIndex fighters) r
      (nodup_keys_buildIndex fighters)] at hmain
    have hres : (scrape_all_ranked_fighters_into_data oracle fighters gd).fighter_data =
        (buildIndex fighters).foldl (merge_step oracle) gd.fighter_data := by
      unfold scrape_all_ranked_fighters_into_data
      rw [if_neg (by simp [hf])]
    rw [← hres] at hmain
    cases hlook : List.lookup name (buildIndex fighters) with
    | none =>
      rw [hlook] at hmain
      refine ⟨r, hmain, rfl, ?_, fun _ => rfl⟩
      intro info hinfo
      cases hinfo
    | some info =>
      rw [hlook] at hmain
      refine ⟨refreshEntry r info, hmain, rfl, ?_, ?_⟩
      · intro info' hinfo'
        injection hinfo' with hi
        subst hi
        exact ⟨rfl, rfl, rfl⟩
      · intro hnone
        cases hnone

/-- Claim C6 witness: with a complete, match-passing stored record and a
one-entry roster, the merge keeps the stat fields and refreshes
Division/Rank/Profile_URL from the entry, even though the oracle always
fails. -/
theorem merge_keeps_complete_records_witness :
    ∃ r', List.lookup "Alpha One"
        (scrape_all_ranked_fighters_into_data oracleNone [entryAlpha] gsAlpha).fighter_data =
          some r' ∧
      statFields r' = statFields recAlpha ∧
      (∀ info, List.lookup "Alpha One" (buildIndex [entryAlpha]) = some info →
        r'.Division = some info.Division ∧ r'.Rank = some info.Rank ∧
          r'.Profile_URL = info.Profile_URL) ∧
      (List.lookup "Alpha One" (buildIndex [entryAlpha]) = none → r' = recAlpha) :=
  merge_keeps_complete_records oracleNone [entryAlpha] gsAlpha "Alpha One" recAlpha
    (by decide) (by decide) (by decide) (by decide)

end Scraper
